import Mathlib

/-!
Shallow embedding of the simulation orchestration engine of the
`digital_twin_project` repository, together with proofs checking its
natural-language specification.

Conventions of the embedding:
* timestamps are integers counting whole minutes (the code works on
  timezone-aware `datetime` values truncated to the minute; all claim-relevant
  arithmetic is in multiples of minutes, with 15-minute sampling intervals);
* meter values (`energy_kwh_import`, `predicted_kwh`) are rationals — the code
  uses Python floats, but every claim-relevant computation here is exact
  field arithmetic except the final `** 0.5` of the RMSE, which is kept as the
  pair (MAE, mean squared error) and related to `Real.sqrt` in the theorems;
* Python `float('nan')` sentinels and raised exceptions are represented with
  `Option`/`Except`;
* the neural-network / random-forest inference itself (`self.model.predict`)
  is abstracted as an uninterpreted function of the prediction timestamp: no
  claim depends on the numeric value of a prediction, only on the timestamps,
  counts and control flow, which are embedded exactly.
-/

namespace DigitalTwinProj

/-- One meter reading, as handed around as a dict with keys `timestamp` and
`energy_kwh_import` in the code. -/
structure Reading where
  timestamp : ℤ
  energy_kwh_import : ℚ
  deriving DecidableEq, Repr

/-- One prediction point, a dict with keys `timestamp` and `predicted_kwh`. -/
structure Pred where
  timestamp : ℤ
  predicted_kwh : ℚ
  deriving DecidableEq, Repr

/-! ## `forecasting_engine.calculate_forecast_metrics`

Source: `src/forecasting_engine.py`, lines 97-136. -/

/-- The Python dict `actual_map = {a['timestamp']: a['energy_kwh_import'] for a
in actuals}`: successive inserts with the same key overwrite, so a lookup
returns the value of the **last** entry of `actuals` carrying that timestamp. -/
def actualMap (actuals : List Reading) (t : ℤ) : Option ℚ :=
  (actuals.reverse.find? (fun a => a.timestamp == t)).map (·.energy_kwh_import)

/-- The aligned `(actual, predicted)` pairs: iterate through `predictions` and
keep those whose timestamp is a key of `actual_map` (the loop at lines
116-119 building `aligned_actuals` / `aligned_predictions`). -/
def alignedPairs (actuals : List Reading) (predictions : List Pred) :
    List (ℚ × ℚ) :=
  predictions.filterMap fun p =>
    (actualMap actuals p.timestamp).map fun a => (a, p.predicted_kwh)

/-- `calculate_forecast_metrics`: returns `none` for the
`{"mae": float('nan'), "rmse": float('nan')}` sentinel when no timestamps
align, and otherwise `some (mae, mse)` where `mae = sum(abs_errors)/len` and
`mse = sum(squared_errors)/len`; the code's `rmse` is `mse ** 0.5`, kept
symbolic as the square root of the second component. -/
def calculate_forecast_metrics (actuals : List Reading)
    (predictions : List Pred) : Option (ℚ × ℚ) :=
  let aligned := alignedPairs actuals predictions
  if aligned.isEmpty then
    none
  else
    let errors := aligned.map fun ap => ap.1 - ap.2
    let abs_errors := errors.map fun e => |e|
    let squared_errors := errors.map fun e => e ^ 2
    let mae := abs_errors.sum / (abs_errors.length : ℚ)
    let mse := squared_errors.sum / (squared_errors.length : ℚ)
    some (mae, mse)

/-! Basic sanity examples (concrete evaluation of the embedding). -/

example :
    calculate_forecast_metrics
      [⟨0, 95⟩, ⟨15, 105⟩, ⟨30, 110⟩, ⟨45, 100⟩]
      [⟨0, 100⟩, ⟨15, 100⟩, ⟨30, 100⟩, ⟨45, 100⟩] = some (5, 75/2) := by
  simp +decide [calculate_forecast_metrics, alignedPairs, actualMap]
  norm_num

example : calculate_forecast_metrics [⟨0, 50⟩] [⟨1440, 50⟩] = none := by
  simp +decide [calculate_forecast_metrics, alignedPairs, actualMap]

/-- Spec-side formulation (from the claim's words): the mean of
`|actual - predicted|` over a list of aligned `(actual, predicted)` pairs. -/
def meanAbsError (l : List (ℚ × ℚ)) : ℚ :=
  (l.map fun ap => |ap.1 - ap.2|).sum / (l.length : ℚ)

/-- Spec-side formulation (from the claim's words): the mean of
`(actual - predicted)^2` over a list of aligned `(actual, predicted)` pairs;
the claimed RMSE is its square root. -/
def meanSqError (l : List (ℚ × ℚ)) : ℚ :=
  (l.map fun ap => (ap.1 - ap.2) ^ 2).sum / (l.length : ℚ)

lemma alignedPairs_eq_nil_iff (actuals : List Reading) (preds : List Pred) :
    alignedPairs actuals preds = [] ↔
      ∀ q ∈ preds, q.timestamp ∉ actuals.map (·.timestamp) := by
  unfold alignedPairs actualMap
  rw [List.filterMap_eq_nil_iff]
  refine forall₂_congr fun q _ => ?_
  rw [Option.map_eq_none', Option.map_eq_none', List.find?_eq_none]
  constructor
  · intro h hmem
    obtain ⟨r, hr, hrt⟩ := List.mem_map.mp hmem
    have hr' := h r (List.mem_reverse.mpr hr)
    simp only [beq_iff_eq] at hr'
    exact hr' hrt
  · intro h r hr hbeq
    simp only [beq_iff_eq] at hbeq
    exact h (List.mem_map.mpr ⟨r, List.mem_reverse.mp hr, hbeq⟩)

lemma cfm_eq_none (actuals : List Reading) (preds : List Pred)
    (h : alignedPairs actuals preds = []) :
    calculate_forecast_metrics actuals preds = none := by
  simp [calculate_forecast_metrics, h]

lemma cfm_eq_some (actuals : List Reading) (preds : List Pred)
    (h : alignedPairs actuals preds ≠ []) :
    calculate_forecast_metrics actuals preds =
      some (meanAbsError (alignedPairs actuals preds),
        meanSqError (alignedPairs actuals preds)) := by
  simp [calculate_forecast_metrics, List.isEmpty_iff, h, meanAbsError,
    meanSqError, List.map_map]
  exact ⟨rfl, rfl⟩

/-- **C4.** `calculate_forecast_metrics` inner-joins actuals and predictions on
timestamp.  It returns the not-a-number sentinel (embedded as `none`) for both
metrics exactly when no prediction timestamp occurs among the actual
timestamps — never zero and, being a total function, never an exception.
Otherwise it returns `mae` = mean of `|actual - predicted|` and an `mse` whose
square root (the code's `rmse = mse ** 0.5`) is the square root of the mean of
`(actual - predicted)^2` over the aligned pairs. -/
theorem calculate_forecast_metrics_spec (actuals : List Reading)
    (preds : List Pred) :
    (calculate_forecast_metrics actuals preds = none ↔
      ∀ q ∈ preds, q.timestamp ∉ actuals.map (·.timestamp)) ∧
    (∀ m, calculate_forecast_metrics actuals preds = some m →
      alignedPairs actuals preds ≠ [] ∧
      m.1 = meanAbsError (alignedPairs actuals preds) ∧
      m.2 = meanSqError (alignedPairs actuals preds) ∧
      Real.sqrt (m.2 : ℝ) =
        Real.sqrt ((meanSqError (alignedPairs actuals preds) : ℝ))) := by
  constructor
  · rw [← alignedPairs_eq_nil_iff]
    constructor
    · intro h
      by_contra hne
      rw [cfm_eq_some _ _ hne] at h
      cases h
    · exact cfm_eq_none _ _
  · intro m hm
    by_cases h : alignedPairs actuals preds = []
    · rw [cfm_eq_none _ _ h] at hm
      cases hm
    · rw [cfm_eq_some _ _ h] at hm
      obtain rfl : _ = m := Option.some_injective _ hm
      exact ⟨h, rfl, rfl, rfl⟩

/-- Witness for `calculate_forecast_metrics_spec` at a concrete input
(actuals at timestamps 0..45 against constant-100 predictions). -/
theorem calculate_forecast_metrics_spec_witness :
    alignedPairs [⟨0, 95⟩, ⟨15, 105⟩, ⟨30, 110⟩, ⟨45, 100⟩]
        [⟨0, 100⟩, ⟨15, 100⟩, ⟨30, 100⟩, ⟨45, 100⟩] ≠ [] ∧
      ((5 : ℚ), (75 / 2 : ℚ)).1 =
        meanAbsError (alignedPairs [⟨0, 95⟩, ⟨15, 105⟩, ⟨30, 110⟩, ⟨45, 100⟩]
          [⟨0, 100⟩, ⟨15, 100⟩, ⟨30, 100⟩, ⟨45, 100⟩]) ∧
      ((5 : ℚ), (75 / 2 : ℚ)).2 =
        meanSqError (alignedPairs [⟨0, 95⟩, ⟨15, 105⟩, ⟨30, 110⟩, ⟨45, 100⟩]
          [⟨0, 100⟩, ⟨15, 100⟩, ⟨30, 100⟩, ⟨45, 100⟩]) ∧
      Real.sqrt ((((5 : ℚ), (75 / 2 : ℚ)).2 : ℝ)) =
        Real.sqrt ((meanSqError (alignedPairs
          [⟨0, 95⟩, ⟨15, 105⟩, ⟨30, 110⟩, ⟨45, 100⟩]
          [⟨0, 100⟩, ⟨15, 100⟩, ⟨30, 100⟩, ⟨45, 100⟩]) : ℝ)) :=
  (calculate_forecast_metrics_spec
    [⟨0, 95⟩, ⟨15, 105⟩, ⟨30, 110⟩, ⟨45, 100⟩]
    [⟨0, 100⟩, ⟨15, 100⟩, ⟨30, 100⟩, ⟨45, 100⟩]).2 (5, 75/2) (by
      simp +decide [calculate_forecast_metrics, alignedPairs, actualMap]
      norm_num)

/-- Discrete Cauchy–Schwarz for lists of rationals, in the form needed to
compare the mean absolute error with the mean squared error:
`(Σ |e|)^2 ≤ n · Σ e^2`. -/
lemma sq_sum_abs_le_length_mul_sum_sq (l : List ℚ) :
    ((l.map fun e => |e|).sum) ^ 2 ≤
      (l.length : ℚ) * (l.map fun e => e ^ 2).sum := by
  induction l with
  | nil => simp
  | cons e t ih =>
    simp only [List.map_cons, List.sum_cons, List.length_cons]
    have hS : 0 ≤ (t.map fun e => |e|).sum :=
      List.sum_nonneg (by
        intro x hx
        obtain ⟨y, _, rfl⟩ := List.mem_map.mp hx
        exact abs_nonneg y)
    have hQ : 0 ≤ (t.map fun e => e ^ 2).sum :=
      List.sum_nonneg (by
        intro x hx
        obtain ⟨y, _, rfl⟩ := List.mem_map.mp hx
        exact sq_nonneg y)
    have ha : 0 ≤ |e| := abs_nonneg e
    have ha2 : |e| ^ 2 = e ^ 2 := sq_abs e
    have hn : (0 : ℚ) ≤ (t.length : ℚ) := by positivity
    have key : 2 * |e| * (t.map fun e => |e|).sum ≤
        (t.length : ℚ) * e ^ 2 + (t.map fun e => e ^ 2).sum := by
      rcases hn.eq_or_lt with hn0 | hn0
      · have hS0 : (t.map fun e => |e|).sum = 0 := by nlinarith [ih]
        nlinarith [hS0]
      · have key2 : (t.length : ℚ) * (2 * |e| * (t.map fun e => |e|).sum) ≤
            (t.length : ℚ) * ((t.length : ℚ) * e ^ 2 + (t.map fun e => e ^ 2).sum) := by
          have hcast : (t.length : ℚ) ^ 2 * |e| ^ 2 = (t.length : ℚ) ^ 2 * e ^ 2 := by
            rw [sq_abs]
          nlinarith [sq_nonneg ((t.length : ℚ) * |e| - (t.map fun e => |e|).sum), ih,
            hcast]
        exact le_of_mul_le_mul_left key2 hn0
    push_cast
    nlinarith [ih, key]

/-- **C10.** Whenever `calculate_forecast_metrics` succeeds (at least one
aligned timestamp), the returned metrics satisfy `0 ≤ mae` and
`mae ≤ rmse = sqrt mse`: the root-mean-square error dominates the mean
absolute error over the same aligned pairs. -/
theorem mae_nonneg_and_le_rmse (actuals : List Reading) (preds : List Pred)
    (m : ℚ × ℚ) (hm : calculate_forecast_metrics actuals preds = some m) :
    0 ≤ m.1 ∧ ((m.1 : ℚ) : ℝ) ≤ Real.sqrt ((m.2 : ℚ) : ℝ) := by
  by_cases h : alignedPairs actuals preds = []
  · rw [cfm_eq_none _ _ h] at hm
    cases hm
  · rw [cfm_eq_some _ _ h] at hm
    obtain rfl : _ = m := Option.some_injective _ hm
    have hlen : 0 < ((alignedPairs actuals preds).length : ℚ) := by
      have := List.length_pos.mpr h
      exact_mod_cast this
    set L := alignedPairs actuals preds with hL
    set errs : List ℚ := L.map fun ap => ap.1 - ap.2 with herrs
    have habs : (L.map fun ap => |ap.1 - ap.2|) = errs.map fun e => |e| := by
      rw [herrs, List.map_map]
      rfl
    have hsq : (L.map fun ap => (ap.1 - ap.2) ^ 2) = errs.map fun e => e ^ 2 := by
      rw [herrs, List.map_map]
      rfl
    have hlen' : (errs.length : ℚ) = (L.length : ℚ) := by rw [herrs, List.length_map]
    have hsumabs : 0 ≤ (errs.map fun e => |e|).sum :=
      List.sum_nonneg (by
        intro x hx
        obtain ⟨y, _, rfl⟩ := List.mem_map.mp hx
        exact abs_nonneg y)
    have hsumsq : 0 ≤ (errs.map fun e => e ^ 2).sum :=
      List.sum_nonneg (by
        intro x hx
        obtain ⟨y, _, rfl⟩ := List.mem_map.mp hx
        exact sq_nonneg y)
    have hmae : meanAbsError L = (errs.map fun e => |e|).sum / (L.length : ℚ) := by
      rw [meanAbsError, habs]
    have hmse : meanSqError L = (errs.map fun e => e ^ 2).sum / (L.length : ℚ) := by
      rw [meanSqError, hsq]
    have hmae0 : 0 ≤ meanAbsError L := by
      rw [hmae]
      exact div_nonneg hsumabs hlen.le
    have hmse0 : 0 ≤ meanSqError L := by
      rw [hmse]
      exact div_nonneg hsumsq hlen.le
    have hcs := sq_sum_abs_le_length_mul_sum_sq errs
    rw [hlen'] at hcs
    have hsq_le : meanAbsError L ^ 2 ≤ meanSqError L := by
      rw [hmae, hmse, div_pow, div_le_div_iff₀ (by positivity) hlen]
      calc ((errs.map fun e => |e|).sum) ^ 2 * (L.length : ℚ)
          ≤ ((L.length : ℚ) * (errs.map fun e => e ^ 2).sum) * (L.length : ℚ) := by
            exact mul_le_mul_of_nonneg_right hcs hlen.le
        _ = (errs.map fun e => e ^ 2).sum * (L.length : ℚ) ^ 2 := by ring
    refine ⟨hmae0, ?_⟩
    rw [Real.le_sqrt (by exact_mod_cast hmae0) (by exact_mod_cast hmse0)]
    exact_mod_cast hsq_le

/-- Witness for `mae_nonneg_and_le_rmse`: one aligned pair with actual 3 and
prediction 1 gives mae = 2 and mse = 4. -/
theorem mae_nonneg_and_le_rmse_witness :
    0 ≤ ((2 : ℚ), (4 : ℚ)).1 ∧
      ((((2 : ℚ), (4 : ℚ)).1 : ℚ) : ℝ) ≤
        Real.sqrt ((((2 : ℚ), (4 : ℚ)).2 : ℚ) : ℝ) :=
  mae_nonneg_and_le_rmse [⟨0, 3⟩] [⟨0, 1⟩] (2, 4) (by
    simp +decide [calculate_forecast_metrics, alignedPairs, actualMap]
    norm_num)

/-! ## The two forecasting models

`src/models/baseline_model.py` and `src/models/dl_model.py`.  The regressor /
neural-network inference (`self.model.predict`) together with the feature
construction feeding it is abstracted as an uninterpreted function `g` from
the prediction timestamp to a value; every count, guard and timestamp
computation is embedded exactly. -/

/-- `pandas.date_range(start=s, end=e, freq=f)`: the ticks `s + k·f`, `k ≥ 0`,
up to and including `e` (empty when `e < s`); `f` is a positive number of
minutes (15 for the baseline grid, 30 for the DL grid). -/
def date_range (s e f : ℤ) : List ℤ :=
  if e < s then []
  else (List.range (((e - s).toNat / f.toNat) + 1)).map fun (i : ℕ) => s + f * (i : ℤ)

lemma date_range_mem {s e f t : ℤ} (hf : 0 < f) (ht : t ∈ date_range s e f) :
    s ≤ t ∧ t ≤ e := by
  unfold date_range at ht
  split at ht
  · cases ht
  · rename_i hse
    push_neg at hse
    obtain ⟨i, hi, rfl⟩ := List.mem_map.mp ht
    rw [List.mem_range] at hi
    have hi' : i ≤ (e - s).toNat / f.toNat := by omega
    have h1 : (i : ℤ) * f ≤ (((e - s).toNat / f.toNat : ℕ) : ℤ) * f := by
      have : (i : ℤ) ≤ (((e - s).toNat / f.toNat : ℕ) : ℤ) := by exact_mod_cast hi'
      exact mul_le_mul_of_nonneg_right this hf.le
    have h2 : ((e - s).toNat / f.toNat) * f.toNat ≤ (e - s).toNat :=
      Nat.div_mul_le_self _ _
    have h3 : (((e - s).toNat / f.toNat : ℕ) : ℤ) * f ≤ e - s := by
      have hfn : ((f.toNat : ℕ) : ℤ) = f := Int.toNat_of_nonneg hf.le
      have hes : (((e - s).toNat : ℕ) : ℤ) = e - s := Int.toNat_of_nonneg (by omega)
      calc (((e - s).toNat / f.toNat : ℕ) : ℤ) * f
          = (((e - s).toNat / f.toNat * f.toNat : ℕ) : ℤ) := by push_cast [hfn]; ring
        _ ≤ (((e - s).toNat : ℕ) : ℤ) := by exact_mod_cast h2
        _ = e - s := hes
    constructor
    · nlinarith [mul_nonneg hf.le (Int.ofNat_nonneg i)]
    · nlinarith [h1, h3]

lemma date_range_chain' (s e f : ℤ) :
    List.Chain' (fun a b => b - a = f) (date_range s e f) := by
  unfold date_range
  split
  · exact List.chain'_nil
  · rw [List.chain'_map]
    rw [List.chain'_range_succ]
    intro m _
    push_cast
    ring

/-- `BaselineModel.predict` (`src/models/baseline_model.py`, lines 111-138):
if untrained return `[]`; otherwise produce one prediction per `date_range`
tick, with the random-forest inference over the feature table abstracted as
`g`.  The `historical_data` argument is accepted but unused by the body, as in
the source. -/
def BaselineModel.predict (is_trained : Bool) (g : ℤ → ℚ)
    (start_timestamp end_timestamp : ℤ) (historical_data : List Reading)
    (frequency : ℤ) : List Pred :=
  if !is_trained then []
  else
    (date_range start_timestamp end_timestamp frequency).map fun t => ⟨t, g t⟩

/-- `SEQUENCE_LENGTH = 48` (`src/models/dl_model.py`, line 25). -/
def SEQUENCE_LENGTH : ℕ := 48

/-- `REQUIRED_HISTORY_FOR_FEATURES = 336` (`src/models/dl_model.py`, line 26);
also the value of `DlModel.get_required_history_count()`. -/
def REQUIRED_HISTORY_FOR_FEATURES : ℕ := 336

/-- `BaseForecastingModel.get_required_history_count`
(`src/models/base_model.py`, lines 53-58): default 1 for simple models. -/
def BaseForecastingModel.get_required_history_count : ℕ := 1

/-- `DlModel.get_required_history_count` (`src/models/dl_model.py`,
lines 40-42). -/
def DlModel.get_required_history_count : ℕ := REQUIRED_HISTORY_FOR_FEATURES

/-- Row count of `DlModel._prepare_dataframe`: `asfreq('30T')` reindexes the
sorted frame from its minimum to its maximum timestamp at 30-minute ticks
(then interpolates values, which we do not track). -/
def prepRowCount (historical : List Reading) : ℕ :=
  match historical.map (·.timestamp) with
  | [] => 0
  | t :: ts => ((ts.foldl max t - ts.foldl min t).toNat / 30) + 1

/-- The autoregressive loop of `DlModel.predict` (lines 133-168): the state
`n` is the current row count of `history_df`.  Each step rebuilds features on
`history_df.tail(REQUIRED_HISTORY_FOR_FEATURES)` plus one placeholder row, so
the candidate input sequence has `min REQUIRED_HISTORY_FOR_FEATURES n + 1`
rows; if that is fewer than `SEQUENCE_LENGTH` the step is skipped, otherwise a
non-negative-clipped prediction is emitted and written back into the buffer
(growing it by one row). -/
def dlLoop (g : ℤ → ℚ) : List ℤ → ℕ → List Pred
  | [], _ => []
  | dt :: rest, n =>
      if min REQUIRED_HISTORY_FOR_FEATURES n + 1 < SEQUENCE_LENGTH then
        dlLoop g rest n
      else
        ⟨dt, max 0 (g dt)⟩ :: dlLoop g rest (n + 1)

/-- `DlModel.predict` (`src/models/dl_model.py`, lines 117-170): guard on
`len(historical_data) < REQUIRED_HISTORY_FOR_FEATURES`, then the
autoregressive loop over the `date_range` grid. -/
def DlModel.predict (g : ℤ → ℚ) (start_timestamp end_timestamp : ℤ)
    (historical_data : List Reading) (frequency : ℤ) : List Pred :=
  if historical_data.length < REQUIRED_HISTORY_FOR_FEATURES then []
  else
    dlLoop g (date_range start_timestamp end_timestamp frequency)
      (prepRowCount historical_data)

lemma dlLoop_of_lt {n : ℕ} (g : ℤ → ℚ) (l : List ℤ)
    (h : min REQUIRED_HISTORY_FOR_FEATURES n + 1 < SEQUENCE_LENGTH) :
    dlLoop g l n = [] := by
  induction l with
  | nil => rfl
  | cons dt rest ih =>
    rw [dlLoop, if_pos h]
    exact ih

lemma dlLoop_of_ge {n : ℕ} (g : ℤ → ℚ) (l : List ℤ)
    (h : SEQUENCE_LENGTH ≤ min REQUIRED_HISTORY_FOR_FEATURES n + 1) :
    dlLoop g l n = l.map fun t => ⟨t, max 0 (g t)⟩ := by
  induction l generalizing n with
  | nil => rfl
  | cons dt rest ih =>
    rw [dlLoop, if_neg (by omega)]
    rw [ih (by unfold SEQUENCE_LENGTH REQUIRED_HISTORY_FOR_FEATURES at h ⊢; omega)]
    rfl

/-- `DlModel.predict` emits either nothing or the full grid. -/
lemma DlModel.predict_eq_nil_or_grid (g : ℤ → ℚ) (s e : ℤ)
    (hist : List Reading) (f : ℤ) :
    DlModel.predict g s e hist f = [] ∨
      DlModel.predict g s e hist f =
        (date_range s e f).map fun t => ⟨t, max 0 (g t)⟩ := by
  unfold DlModel.predict
  split
  · exact Or.inl rfl
  · rcases lt_or_le (min REQUIRED_HISTORY_FOR_FEATURES (prepRowCount hist) + 1)
      SEQUENCE_LENGTH with h | h
    · exact Or.inl (dlLoop_of_lt g _ h)
    · exact Or.inr (dlLoop_of_ge g _ h)

lemma mapped_grid_mem {s e f : ℤ} {v : ℤ → ℚ} {q : Pred} (hf : 0 < f)
    (hq : q ∈ (date_range s e f).map fun t => (⟨t, v t⟩ : Pred)) :
    s ≤ q.timestamp ∧ q.timestamp ≤ e := by
  obtain ⟨t, ht, rfl⟩ := List.mem_map.mp hq
  simpa using date_range_mem hf ht

lemma mapped_grid_chain' (s e f : ℤ) (v : ℤ → ℚ) :
    List.Chain' (fun a b => b.timestamp - a.timestamp = f)
      ((date_range s e f).map fun t => (⟨t, v t⟩ : Pred)) := by
  rw [List.chain'_map]
  exact date_range_chain' s e f

/-- **C7.** For every window `(s, e)` with `s < e` and positive step `f`, both
models' `predict` return series whose timestamps all lie in `[s, e]`
(inclusive of `s`) and whose consecutive timestamps are spaced by exactly
`f`: the baseline emits the full `date_range` grid (or nothing when
untrained), and the DL model emits either nothing or the full grid, so no
gaps ever appear between consecutive emitted points. -/
theorem predict_timestamps_in_window_and_spaced (tr : Bool) (g gdl : ℤ → ℚ)
    (hist histdl : List Reading) (s e f : ℤ) (hf : 0 < f) (hse : s < e) :
    ((∀ q ∈ BaselineModel.predict tr g s e hist f,
        s ≤ q.timestamp ∧ q.timestamp ≤ e) ∧
      List.Chain' (fun a b => b.timestamp - a.timestamp = f)
        (BaselineModel.predict tr g s e hist f)) ∧
    ((∀ q ∈ DlModel.predict gdl s e histdl f,
        s ≤ q.timestamp ∧ q.timestamp ≤ e) ∧
      List.Chain' (fun a b => b.timestamp - a.timestamp = f)
        (DlModel.predict gdl s e histdl f)) := by
  constructor
  · unfold BaselineModel.predict
    split
    · simp
    · exact ⟨fun q hq => mapped_grid_mem hf hq, mapped_grid_chain' s e f g⟩
  · rcases DlModel.predict_eq_nil_or_grid gdl s e histdl f with h | h <;> rw [h]
    · simp
    · exact ⟨fun q hq => mapped_grid_mem hf hq, mapped_grid_chain' s e f _⟩

/-- Witness for `predict_timestamps_in_window_and_spaced` on the concrete
window `[0, 30]` with a 15-minute step, a trained baseline and an empty DL
history. -/
theorem predict_timestamps_in_window_and_spaced_witness :
    ((∀ q ∈ BaselineModel.predict true (fun _ => 0) 0 30 [] 15,
        0 ≤ q.timestamp ∧ q.timestamp ≤ 30) ∧
      List.Chain' (fun a b => b.timestamp - a.timestamp = 15)
        (BaselineModel.predict true (fun _ => 0) 0 30 [] 15)) ∧
    ((∀ q ∈ DlModel.predict (fun _ => 0) 0 30 [] 15,
        0 ≤ q.timestamp ∧ q.timestamp ≤ 30) ∧
      List.Chain' (fun a b => b.timestamp - a.timestamp = 15)
        (DlModel.predict (fun _ => 0) 0 30 [] 15)) :=
  predict_timestamps_in_window_and_spaced true (fun _ => 0) (fun _ => 0) [] []
    0 30 15 (by decide) (by decide)

/-- A concrete history of 340 readings spaced 30 minutes apart. -/
def dlHist340 : List Reading :=
  (List.range 340).map fun (i : ℕ) => ⟨30 * (i : ℤ), 1⟩

lemma le_foldl_max_init (l : List ℤ) (a : ℤ) : a ≤ l.foldl max a := by
  induction l generalizing a with
  | nil => exact le_refl a
  | cons b t ih => exact le_trans (le_max_left a b) (ih (max a b))

lemma le_foldl_max_of_mem {l : List ℤ} {x : ℤ} (a : ℤ) (hx : x ∈ l) :
    x ≤ l.foldl max a := by
  induction l generalizing a with
  | nil => cases hx
  | cons b t ih =>
    rcases List.mem_cons.mp hx with rfl | hx'
    · exact le_trans (le_max_right a x) (le_foldl_max_init t (max a x))
    · exact ih (max a b) hx'

lemma foldl_min_le_init (l : List ℤ) (a : ℤ) : l.foldl min a ≤ a := by
  induction l generalizing a with
  | nil => exact le_refl a
  | cons b t ih => exact le_trans (ih (min a b)) (min_le_left a b)

lemma dlHist340_length : dlHist340.length = 340 := by
  rw [dlHist340, List.length_map, List.length_range]

lemma prepRowCount_cons (r : Reading) (rest : List Reading) :
    prepRowCount (r :: rest) =
      (((rest.map (·.timestamp)).foldl max r.timestamp -
        (rest.map (·.timestamp)).foldl min r.timestamp).toNat / 30) + 1 := rfl

lemma dlHist340_split :
    dlHist340 =
      (⟨0, 1⟩ : Reading) ::
        (List.range 339).map fun (i : ℕ) => (⟨30 * ((i : ℤ) + 1), 1⟩ : Reading) := by
  rw [dlHist340]
  rw [show (340 : ℕ) = 339 + 1 from rfl, List.range_succ_eq_map]
  rw [List.map_cons, List.map_map]
  refine congrArg₂ _ (by norm_num) ?_
  refine List.map_congr_left fun i _ => ?_
  show (⟨30 * ((i.succ : ℕ) : ℤ), 1⟩ : Reading) = ⟨30 * ((i : ℤ) + 1), 1⟩
  push_cast
  rfl

lemma prepRowCount_dlHist340_ge : 47 ≤ prepRowCount dlHist340 := by
  rw [dlHist340_split, prepRowCount_cons]
  have hts : (((List.range 339).map
        fun (i : ℕ) => (⟨30 * ((i : ℤ) + 1), 1⟩ : Reading)).map (·.timestamp)) =
      (List.range 339).map fun (i : ℕ) => 30 * ((i : ℤ) + 1) := by
    rw [List.map_map]
    rfl
  rw [hts]
  have hmem : (10170 : ℤ) ∈
      (List.range 339).map fun (i : ℕ) => 30 * ((i : ℤ) + 1) := by
    have h338 : (338 : ℕ) ∈ List.range 339 := List.mem_range.mpr (by decide)
    exact List.mem_map.mpr ⟨338, h338, by norm_num⟩
  have hmx : (10170 : ℤ) ≤
      ((List.range 339).map fun (i : ℕ) => 30 * ((i : ℤ) + 1)).foldl max 0 :=
    le_foldl_max_of_mem 0 hmem
  have hmn :
      ((List.range 339).map fun (i : ℕ) => 30 * ((i : ℤ) + 1)).foldl min 0 ≤ 0 :=
    foldl_min_le_init _ 0
  dsimp only
  omega

/-- **C9 (counterexample).**  The claim takes the autoregressive model's
required history count to be "the longest lag plus the sequence length"
(`336 + 48 = 384`), but `DlModel.get_required_history_count()` returns only
`REQUIRED_HISTORY_FOR_FEATURES = 336` (the longest lag window): a history of
340 points — fewer than 384 — passes the guard and `predict` emits a
(non-empty) prediction series instead of zero predictions. -/
theorem dl_predict_threshold_counterexample :
    dlHist340.length < REQUIRED_HISTORY_FOR_FEATURES + SEQUENCE_LENGTH ∧
      REQUIRED_HISTORY_FOR_FEATURES ≤ dlHist340.length ∧
      DlModel.predict (fun _ => 0) 10200 10200 dlHist340 30 ≠ [] := by
  refine ⟨?_, ?_, ?_⟩
  · rw [dlHist340_length]
    decide
  · rw [dlHist340_length]
    decide
  · unfold DlModel.predict
    rw [if_neg (by rw [dlHist340_length]; decide)]
    rw [dlLoop_of_ge _ _ (by
      have := prepRowCount_dlHist340_ge
      unfold SEQUENCE_LENGTH REQUIRED_HISTORY_FOR_FEATURES
      omega)]
    have hdr : date_range 10200 10200 30 = [10200] := by decide
    rw [hdr]
    simp

/-- **C9 (amended).**  For every history with fewer points than
`REQUIRED_HISTORY_FOR_FEATURES = 336` (the longest lag window — the value the
model's `get_required_history_count()` actually reports), `DlModel.predict`
emits zero predictions via its upfront guard and returns normally;
independently, any loop step whose candidate input sequence is shorter than
`SEQUENCE_LENGTH` is skipped. -/
theorem dl_predict_insufficient_history (g : ℤ → ℚ) (hist : List Reading)
    (s e f : ℤ) (h : hist.length < REQUIRED_HISTORY_FOR_FEATURES) :
    DlModel.predict g s e hist f = [] ∧
      DlModel.get_required_history_count = REQUIRED_HISTORY_FOR_FEATURES ∧
      ∀ l n, min REQUIRED_HISTORY_FOR_FEATURES n + 1 < SEQUENCE_LENGTH →
        dlLoop g l n = [] := by
  refine ⟨?_, rfl, fun l n hn => dlLoop_of_lt g l hn⟩
  unfold DlModel.predict
  rw [if_pos h]

/-- Witness for `dl_predict_insufficient_history`: one single reading (far
fewer than 336) yields zero predictions. -/
theorem dl_predict_insufficient_history_witness :
    DlModel.predict (fun _ => 0) 15 1455 [⟨0, 5⟩] 30 = [] :=
  (dl_predict_insufficient_history (fun _ => 0) [⟨0, 5⟩] 15 1455 30
    (by decide)).1

/-! ## The orchestrator: `DigitalTwin.run_simulation`

`src/digital_twin.py`, lines 31-230, with the model loader
`load_forecasting_model` of `src/forecasting_engine.py`, lines 56-95.

A model class is embedded by its orchestrator-facing behaviour: its name,
its `get_required_history_count()`, whether `train` completes without
raising on a given history, and its `predict` as a function of
`(start, end, frequency)`.  Python object allocation (`model_class()`) is
made observable by tagging every instantiation with a fresh counter value,
so that instance sharing between runs is expressible.  Database and clock
effects are supplied through an environment record, and raised exceptions
are `Except.error`. -/

/-- The orchestrator-facing behaviour of one model class. -/
structure ModelBehavior where
  model_name : String
  required_history_count : ℕ
  trainOk : List Reading → Bool
  predictF : ℤ → ℤ → ℤ → List Pred

/-- One instantiated model object (`model_class()` in
`load_forecasting_model`); `instanceId` is the allocation tag. -/
structure LoadedInstance where
  behavior : ModelBehavior
  instanceId : ℕ

/-- `load_forecasting_model(model_name)` (`src/forecasting_engine.py`,
lines 56-95): resolve the module/class by name (the `src/models` package is
embedded as the partial map `registry`); on success instantiate and
`return model_class()` — a **new** object every call; on failure raise
`ValueError` (`Except.error ()`). -/
def load_forecasting_model (registry : String → Option ModelBehavior)
    (alloc : ℕ) (model_name : String) :
    Except Unit (LoadedInstance × ℕ) :=
  match registry model_name with
  | some b => .ok (⟨b, alloc⟩, alloc + 1)
  | none => .error ()

/-- The per-twin mutable state (`self.forecasting_model`,
`self.latest_real_reading` of class `DigitalTwin`). -/
structure TwinState where
  forecasting_model : Option LoadedInstance
  latest_real_reading : Option Reading

/-- Lines 112-113 of `run_simulation`: reload only when no model is cached
or the cached model's name differs from the requested one (`load_model`
re-raises loader failures). -/
def selectModel (cached : Option LoadedInstance)
    (registry : String → Option ModelBehavior) (alloc : ℕ)
    (model_name : String) : Except Unit (LoadedInstance × ℕ) :=
  match cached with
  | some inst =>
      if inst.behavior.model_name = model_name then .ok (inst, alloc)
      else load_forecasting_model registry alloc model_name
  | none => load_forecasting_model registry alloc model_name

/-- Lines 149-154: round the current time (seconds already stripped) up to
the next quarter-hour boundary, keeping it unchanged when already aligned. -/
def nextQuarter (now : ℤ) : ℤ :=
  let minutes_to_next_quarter := 15 - now % 15
  if minutes_to_next_quarter = 15 then now else now + minutes_to_next_quarter

/-- `sorted(historical_data, key=lambda x: x['timestamp'])` (line 141). -/
def sortedByTimestamp (l : List Reading) : List Reading :=
  l.insertionSort fun a b => a.timestamp ≤ b.timestamp

/-- Lines 137-156: the prediction start.  With history: 15 minutes after the
last timestamp of the sorted history.  Without history but with a latest
real reading: 15 minutes after it.  Otherwise: the next quarter-hour from
now.  (The `getD 0` default of the empty-sorted-list branch is unreachable
when the history is non-empty.) -/
def predictionStart (historical : List Reading) (latest : Option Reading)
    (now : ℤ) : ℤ :=
  if historical.isEmpty then
    match latest with
    | some r => r.timestamp + 15
    | none => nextQuarter now
  else
    ((sortedByTimestamp historical).getLast?.map (·.timestamp)).getD 0 + 15

/-- Lines 158-163: `end = start + horizon`, auto-corrected to `start + 15`
minutes when `start >= end`. -/
def resolveEnd (s h : ℤ) : ℤ :=
  if s + 60 * h ≤ s then s + 15 else s + 60 * h

/-- The environment of one `run_simulation` call: what the database, the
clock and the weather-independent collaborators would answer. -/
structure SimEnv where
  meter_id : String
  historical : List Reading
  latestFetch : Option Reading
  now : ℤ
  runId : ℕ
  insertRunOk : Bool
  insertPredsOk : Bool
  actualsInRange : ℤ → ℤ → List Reading

/-- Lines 122-125: `self.latest_real_reading` after the conditional fetch —
`get_latest_real_reading` is called only when the fetched history is empty,
and it overwrites the field only when the database returns a row. -/
def latestAfterFetch (env : SimEnv) (twin : TwinState) : Option Reading :=
  if env.historical.isEmpty then
    match env.latestFetch with
    | some r => some r
    | none => twin.latest_real_reading
  else twin.latest_real_reading

/-- The resolved prediction start of the run. -/
def simStart (env : SimEnv) (twin : TwinState) : ℤ :=
  predictionStart env.historical (latestAfterFetch env twin) env.now

/-- The resolved prediction end of the run. -/
def simEnd (env : SimEnv) (twin : TwinState) (prediction_horizon_hours : ℤ) : ℤ :=
  resolveEnd (simStart env twin) prediction_horizon_hours

/-- Lines 166-182: `current_run_id` — the id returned by
`db_manager.insert_forecast_run`, or `None` when that call raised (the
exception is caught and the run continues without database persistence). -/
def simRunId (env : SimEnv) : Option ℕ :=
  if env.insertRunOk then some env.runId else none

/-- Line 185-189: the simulated readings produced by the selected model over
the resolved window at 15-minute frequency. -/
def simPreds (inst : LoadedInstance) (env : SimEnv) (twin : TwinState)
    (h : ℤ) : List Pred :=
  inst.behavior.predictF (simStart env twin) (simEnd env twin h) 15

/-- Lines 193-195: the actual readings fetched for the resolved window. -/
def simActuals (env : SimEnv) (twin : TwinState) (h : ℤ) : List Reading :=
  env.actualsInRange (simStart env twin) (simEnd env twin h)

/-- Lines 203-211: the rows handed to `insert_forecast_predictions`, each
prediction opportunistically paired with the actual at its timestamp. -/
structure PredictionRow where
  timestamp : ℤ
  predicted_kwh : ℚ
  actual_kwh : Option ℚ

/-- The prediction rows built for storage. -/
def simStoredRows (inst : LoadedInstance) (env : SimEnv) (twin : TwinState)
    (h : ℤ) : List PredictionRow :=
  (simPreds inst env twin h).map fun p =>
    ⟨p.timestamp, p.predicted_kwh, actualMap (simActuals env twin h) p.timestamp⟩

/-- The row written by `db_manager.insert_forecast_run` (lines 168-177). -/
structure ForecastRunRow where
  run_id : ℕ
  meter_id : String
  model_name : String
  prediction_start_time : ℤ
  prediction_end_time : ℤ

/-- The dict returned by a completed `run_simulation` (lines 221-230). -/
structure RunResult where
  meter_id : String
  model_used : String
  simulation_start : ℤ
  simulation_end : ℤ
  simulated_readings : List Pred
  actual_readings_in_sim_range : List Reading
  metrics : Option (ℚ × ℚ)
  run_id : Option ℕ

/-- What `run_simulation` hands back without raising: either the empty dict
`{}` (training failure, lines 133-135) or the full result dict. -/
inductive SimOutcome where
  | emptyDict
  | result (r : RunResult)

/-- Everything observable about one `run_simulation` call: the returned
value, the selected model object, the twin state and allocation counter
afterwards, and what reached the database. -/
structure SimReturn where
  outcome : SimOutcome
  selected : LoadedInstance
  twinAfter : TwinState
  allocAfter : ℕ
  insertedRun : Option ForecastRunRow
  storedPredictions : Option (List PredictionRow)

/-- `DigitalTwin.run_simulation` (`src/digital_twin.py`, lines 88-230).
Step order as in the source: (re)load the model by name (loader failures
propagate), fetch history/latest reading, train (an exception yields the
empty dict `{}`), resolve the window, register the run (a failure is
swallowed, leaving `current_run_id = None`), predict, fetch actuals,
compute metrics, and persist predictions and metrics only under a non-null
run id. -/
def run_simulation (registry : String → Option ModelBehavior) (env : SimEnv)
    (twin : TwinState) (alloc : ℕ) (prediction_horizon_hours : ℤ)
    (model_name : String) : Except Unit SimReturn :=
  match selectModel twin.forecasting_model registry alloc model_name with
  | .error e => .error e
  | .ok (inst, allocAfter) =>
      if inst.behavior.trainOk env.historical then
        .ok ⟨.result ⟨env.meter_id, model_name, simStart env twin,
              simEnd env twin prediction_horizon_hours,
              simPreds inst env twin prediction_horizon_hours,
              simActuals env twin prediction_horizon_hours,
              calculate_forecast_metrics
                (simActuals env twin prediction_horizon_hours)
                (simPreds inst env twin prediction_horizon_hours),
              simRunId env⟩,
            inst, ⟨some inst, latestAfterFetch env twin⟩, allocAfter,
            (simRunId env).map fun rid =>
              ⟨rid, env.meter_id, model_name, simStart env twin,
                simEnd env twin prediction_horizon_hours⟩,
            match simRunId env with
            | some _ =>
                if env.insertPredsOk then
                  some (simStoredRows inst env twin prediction_horizon_hours)
                else none
            | none => none⟩
      else
        .ok ⟨.emptyDict, inst, ⟨some inst, latestAfterFetch env twin⟩,
          allocAfter, none, none⟩

/-! ## Window-resolution lemmas -/

lemma resolveEnd_gt (s h : ℤ) : s < resolveEnd s h := by
  unfold resolveEnd
  split <;> omega

lemma resolveEnd_of_nonpos (s : ℤ) {h : ℤ} (hh : h ≤ 0) :
    resolveEnd s h = s + 15 := by
  unfold resolveEnd
  rw [if_pos (by omega)]

lemma resolveEnd_of_pos (s : ℤ) {h : ℤ} (hh : 0 < h) :
    resolveEnd s h = s + 60 * h := by
  unfold resolveEnd
  rw [if_neg (by omega)]

lemma nextQuarter_spec (now : ℤ) :
    nextQuarter now % 15 = 0 ∧ now ≤ nextQuarter now ∧
      nextQuarter now < now + 15 := by
  simp only [nextQuarter]
  split <;> omega

instance : IsTotal Reading fun a b => a.timestamp ≤ b.timestamp :=
  ⟨fun a b => le_total a.timestamp b.timestamp⟩

instance : IsTrans Reading fun a b => a.timestamp ≤ b.timestamp :=
  ⟨fun _ _ _ hab hbc => le_trans hab hbc⟩

lemma sorted_le_getLast? {l : List Reading}
    (hs : l.Sorted fun a b : Reading => a.timestamp ≤ b.timestamp)
    {y : Reading} (hy : l.getLast? = some y) :
    ∀ x ∈ l, x.timestamp ≤ y.timestamp := by
  induction l with
  | nil => cases hy
  | cons a t ih =>
    cases t with
    | nil =>
      intro x hx
      obtain rfl : x = a := by simpa using hx
      obtain rfl : x = y := by simpa using hy
      exact le_refl _
    | cons b t' =>
      rw [List.getLast?_cons_cons] at hy
      have hymem : y ∈ b :: t' := by
        obtain ⟨hne, rfl⟩ := List.mem_getLast?_eq_getLast (by rw [hy]; rfl)
        exact List.getLast_mem hne
      intro x hx
      rcases List.mem_cons.mp hx with rfl | hx'
      · exact List.rel_of_sorted_cons hs y hymem
      · exact ih hs.of_cons hy x hx'

lemma sortedByTimestamp_ne_nil {l : List Reading} (h : l ≠ []) :
    sortedByTimestamp l ≠ [] := by
  intro hcon
  have hperm := List.perm_insertionSort
    (fun a b : Reading => a.timestamp ≤ b.timestamp) l
  rw [sortedByTimestamp] at hcon
  rw [hcon] at hperm
  exact h hperm.symm.eq_nil

/-- With a non-empty history, `predictionStart` is 15 minutes after the
largest history timestamp (which is the timestamp of some history row that
dominates all others). -/
lemma predictionStart_of_ne_nil {historical : List Reading}
    (hne : historical ≠ []) (latest : Option Reading) (now : ℤ) :
    ∃ t, t ∈ historical.map (·.timestamp) ∧
      (∀ u ∈ historical.map (·.timestamp), u ≤ t) ∧
      predictionStart historical latest now = t + 15 := by
  have hsne := sortedByTimestamp_ne_nil hne
  obtain ⟨y, hy⟩ : ∃ y, (sortedByTimestamp historical).getLast? = some y := by
    cases hget : (sortedByTimestamp historical).getLast? with
    | none => exact absurd (List.getLast?_eq_none_iff.mp hget) hsne
    | some y => exact ⟨y, rfl⟩
  have hperm := List.perm_insertionSort
    (fun a b : Reading => a.timestamp ≤ b.timestamp) historical
  have hsorted := List.sorted_insertionSort
    (fun a b : Reading => a.timestamp ≤ b.timestamp) historical
  have hymem : y ∈ historical := by
    have : y ∈ sortedByTimestamp historical := by
      obtain ⟨hne', rfl⟩ := List.mem_getLast?_eq_getLast (by rw [hy]; rfl)
      exact List.getLast_mem hne'
    exact hperm.mem_iff.mp this
  refine ⟨y.timestamp, List.mem_map.mpr ⟨y, hymem, rfl⟩, ?_, ?_⟩
  · intro u hu
    obtain ⟨x, hx, rfl⟩ := List.mem_map.mp hu
    exact sorted_le_getLast? hsorted hy x (hperm.mem_iff.mpr hx)
  · unfold predictionStart
    rw [if_neg (by simpa [List.isEmpty_iff] using hne)]
    rw [hy]
    rfl

lemma predictionStart_of_nil_none (now : ℤ) :
    predictionStart [] none now = nextQuarter now := rfl

/-! ## C3: every produced run has a valid, auto-corrected window -/

/-- **C3.** Whenever `run_simulation` completes with a result dict, the
resolved window satisfies `simulation_start < simulation_end`; when the
computed window was degenerate (non-positive horizon, so `end ≤ start`),
the end was auto-corrected to `start` plus one 15-minute step; and any
ForecastRun row that reached the database carries that same corrected,
non-empty window. -/
theorem run_simulation_window_valid (registry : String → Option ModelBehavior)
    (env : SimEnv) (twin : TwinState) (alloc : ℕ) (h : ℤ) (name : String)
    (ret : SimReturn) (r : RunResult)
    (hret : run_simulation registry env twin alloc h name = .ok ret)
    (hres : ret.outcome = .result r) :
    r.simulation_start < r.simulation_end ∧
      (h ≤ 0 → r.simulation_end = r.simulation_start + 15) ∧
      (∀ row, ret.insertedRun = some row →
        row.prediction_start_time < row.prediction_end_time) := by
  unfold run_simulation at hret
  cases hsel : selectModel twin.forecasting_model registry alloc name with
  | error e =>
    rw [hsel] at hret
    cases hret
  | ok p =>
    obtain ⟨inst, allocAfter⟩ := p
    rw [hsel] at hret
    dsimp only at hret
    by_cases htr : inst.behavior.trainOk env.historical = true
    · rw [if_pos htr] at hret
      obtain rfl : _ = ret := Except.ok.inj hret
      dsimp only at hres
      injection hres with hr
      subst hr
      refine ⟨resolveEnd_gt _ _, fun hh => resolveEnd_of_nonpos _ hh, ?_⟩
      intro row hrow
      dsimp only at hrow
      simp only [Option.map_eq_some'] at hrow
      obtain ⟨rid, _, rfl⟩ := hrow
      exact resolveEnd_gt _ _
    · rw [if_neg htr] at hret
      obtain rfl : _ = ret := Except.ok.inj hret
      dsimp only at hres
      cases hres

/-- Witness for `run_simulation_window_valid`: a concrete run with a
degenerate (zero-hour) horizon; the returned window is `[15, 30)`. -/
theorem run_simulation_window_valid_witness :
    (15 : ℤ) < 30 ∧ ((0 : ℤ) ≤ 0 → (30 : ℤ) = 15 + 15) ∧
      (∀ row, (some (⟨7, "M1", "baseline_model", 15, 30⟩ : ForecastRunRow) =
          some row) →
        row.prediction_start_time < row.prediction_end_time) := by
  have hbase := run_simulation_window_valid
    (fun name => if name = "baseline_model" then
        some ⟨"baseline_model", 1, fun _ => true, fun _ _ _ => []⟩ else none)
    ⟨"M1", [⟨0, 5⟩], none, 0, 7, true, true, fun _ _ => []⟩
    ⟨none, none⟩ 0 0 "baseline_model" _ _ rfl rfl
  exact hbase

/-! ## C6: standard-mode window inference -/

/-- **C6.** In standard forecast mode, whenever `run_simulation` completes
with a result dict: with a non-empty fetched history the prediction start is
the timestamp of the latest (largest-timestamp) historical reading plus one
15-minute sampling interval, and for a positive horizon the end is the start
plus the requested horizon; with no historical reading and no latest reading
at all, the start falls back to the next quarter-hour boundary (inclusive)
from the current time. -/
theorem run_simulation_window_inference
    (registry : String → Option ModelBehavior) (env : SimEnv)
    (twin : TwinState) (alloc : ℕ) (h : ℤ) (name : String)
    (ret : SimReturn) (r : RunResult)
    (hret : run_simulation registry env twin alloc h name = .ok ret)
    (hres : ret.outcome = .result r) :
    (env.historical ≠ [] →
      ∃ t, t ∈ env.historical.map (·.timestamp) ∧
        (∀ u ∈ env.historical.map (·.timestamp), u ≤ t) ∧
        r.simulation_start = t + 15) ∧
    (0 < h → r.simulation_end = r.simulation_start + 60 * h) ∧
    (env.historical = [] → env.latestFetch = none →
      twin.latest_real_reading = none →
      r.simulation_start % 15 = 0 ∧ env.now ≤ r.simulation_start ∧
        r.simulation_start < env.now + 15) := by
  have hfields : r.simulation_start = simStart env twin ∧
      r.simulation_end = simEnd env twin h := by
    unfold run_simulation at hret
    cases hsel : selectModel twin.forecasting_model registry alloc name with
    | error e =>
      rw [hsel] at hret
      cases hret
    | ok p =>
      obtain ⟨inst, allocAfter⟩ := p
      rw [hsel] at hret
      dsimp only at hret
      by_cases htr : inst.behavior.trainOk env.historical = true
      · rw [if_pos htr] at hret
        obtain rfl : _ = ret := Except.ok.inj hret
        dsimp only at hres
        injection hres with hr
        subst hr
        exact ⟨rfl, rfl⟩
      · rw [if_neg htr] at hret
        obtain rfl : _ = ret := Except.ok.inj hret
        dsimp only at hres
        cases hres
  obtain ⟨hs, he⟩ := hfields
  refine ⟨?_, ?_, ?_⟩
  · intro hne
    obtain ⟨t, htmem, htmax, hteq⟩ :=
      predictionStart_of_ne_nil hne (latestAfterFetch env twin) env.now
    exact ⟨t, htmem, htmax, by rw [hs]; exact hteq⟩
  · intro hh
    rw [he, hs]
    exact resolveEnd_of_pos _ hh
  · intro hnil hlf hlr
    have hlatest : latestAfterFetch env twin = none := by
      unfold latestAfterFetch
      rw [if_pos (by simp [hnil]), hlf, hlr]
    have : simStart env twin = nextQuarter env.now := by
      unfold simStart
      rw [hnil, hlatest]
      rfl
    rw [hs, this]
    obtain ⟨h1, h2, h3⟩ := nextQuarter_spec env.now
    exact ⟨h1, h2, h3⟩

/-- Witness for `run_simulation_window_inference`: a run over a two-reading
history whose latest timestamp is 45, horizon 2 hours; the start must be 60
and the end 180. -/
theorem run_simulation_window_inference_witness :
    (([⟨45, 7⟩, ⟨0, 5⟩] : List Reading) ≠ [] →
      ∃ t, t ∈ ([⟨45, 7⟩, ⟨0, 5⟩] : List Reading).map (·.timestamp) ∧
        (∀ u ∈ ([⟨45, 7⟩, ⟨0, 5⟩] : List Reading).map (·.timestamp), u ≤ t) ∧
        (60 : ℤ) = t + 15) ∧
    ((0 : ℤ) < 2 → (180 : ℤ) = 60 + 60 * 2) ∧
    (([⟨45, 7⟩, ⟨0, 5⟩] : List Reading) = [] → (none : Option Reading) = none →
      (none : Option Reading) = none →
      (60 : ℤ) % 15 = 0 ∧ (0 : ℤ) ≤ 60 ∧ (60 : ℤ) < 0 + 15) := by
  have hbase := run_simulation_window_inference
    (fun name => if name = "baseline_model" then
        some ⟨"baseline_model", 1, fun _ => true, fun _ _ _ => []⟩ else none)
    ⟨"M6", [⟨45, 7⟩, ⟨0, 5⟩], none, 0, 7, true, true, fun _ _ => []⟩
    ⟨none, none⟩ 0 2 "baseline_model" _ _ rfl rfl
  exact hbase

/-! ## Concrete fixtures for the orchestrator-level claims -/

/-- Orchestrator-facing behaviour of `BaselineModel`: named
`"baseline_model"`, default required history count 1, `train` never raises
(it catches its own exceptions, lines 107-109 of `baseline_model.py`);
its predictions are irrelevant to the selection/registration claims. -/
def baselineBehavior : ModelBehavior :=
  ⟨"baseline_model", BaseForecastingModel.get_required_history_count,
    fun _ => true, fun _ _ _ => []⟩

/-- Orchestrator-facing behaviour of `DlModel`: named `"dl_model"`,
required history count 336, `train` is a no-op (lines 112-115 of
`dl_model.py`). -/
def dlBehavior : ModelBehavior :=
  ⟨"dl_model", DlModel.get_required_history_count, fun _ => true,
    fun _ _ _ => []⟩

/-- The `src/models` package as seen by `load_forecasting_model`. -/
def modelsRegistry : String → Option ModelBehavior := fun model_name =>
  if model_name = "baseline_model" then some baselineBehavior
  else if model_name = "dl_model" then some dlBehavior
  else none

/-- An environment with a single historical reading (far fewer than the DL
model's 336 required points) and a working database. -/
def envShortHistory : SimEnv :=
  ⟨"M1", [⟨0, 5⟩], none, 0, 7, true, true, fun _ _ => []⟩

/-! ## C1: no baseline downgrade exists -/

/-- **C1 (counterexample).** A run requesting `dl_model` with a one-point
history (1 < 336 required) completes and reports
`model_used = "dl_model"` — not `"baseline"` (nor `"baseline_model"`): no
downgrade happens before (or after) training, and the result dict (see
`RunResult`) carries no `fallbackReason` field at all. -/
theorem no_fallback_counterexample :
    envShortHistory.historical.length < dlBehavior.required_history_count ∧
    ∃ ret r,
      run_simulation modelsRegistry envShortHistory ⟨none, none⟩ 0 24
        "dl_model" = .ok ret ∧
      ret.outcome = .result r ∧
      r.model_used = "dl_model" ∧ r.model_used ≠ "baseline" ∧
      r.model_used ≠ "baseline_model" := by
  refine ⟨by decide, _, _, rfl, rfl, rfl, by decide, by decide⟩

/-- **C1 (amended).** `run_simulation` performs no data-sufficiency
downgrade: whenever it returns a result dict — in particular when the
history is shorter than the requested model's required history count — the
reported `model_used` equals the requested model name, and a loader failure
raises to the caller (`Except.error`) instead of selecting the baseline
model. -/
theorem run_simulation_no_fallback (registry : String → Option ModelBehavior)
    (env : SimEnv) (twin : TwinState) (alloc : ℕ) (h : ℤ) (name : String) :
    (∀ ret r, run_simulation registry env twin alloc h name = .ok ret →
      ret.outcome = .result r → r.model_used = name) ∧
    (selectModel twin.forecasting_model registry alloc name = .error () →
      run_simulation registry env twin alloc h name = .error ()) := by
  constructor
  · intro ret r hret hres
    unfold run_simulation at hret
    cases hsel : selectModel twin.forecasting_model registry alloc name with
    | error e =>
      rw [hsel] at hret
      cases hret
    | ok p =>
      obtain ⟨inst, allocAfter⟩ := p
      rw [hsel] at hret
      dsimp only at hret
      by_cases htr : inst.behavior.trainOk env.historical = true
      · rw [if_pos htr] at hret
        obtain rfl : _ = ret := Except.ok.inj hret
        dsimp only at hres
        injection hres with hr
        subst hr
        rfl
      · rw [if_neg htr] at hret
        obtain rfl : _ = ret := Except.ok.inj hret
        dsimp only at hres
        cases hres
  · intro hsel
    unfold run_simulation
    rw [hsel]

/-- Witness for `run_simulation_no_fallback`: the short-history `dl_model`
run reports the requested name, and requesting an unknown model name raises. -/
theorem run_simulation_no_fallback_witness :
    ("dl_model" : String) = "dl_model" ∧
      run_simulation modelsRegistry envShortHistory ⟨none, none⟩ 0 24
        "no_such_model" = .error () :=
  ⟨(run_simulation_no_fallback modelsRegistry envShortHistory ⟨none, none⟩ 0 24
      "dl_model").1 _ _ rfl rfl,
    (run_simulation_no_fallback modelsRegistry envShortHistory ⟨none, none⟩ 0 24
      "no_such_model").2 rfl⟩

/-! ## C2: training failure yields the empty dict -/

/-- A pluggable model whose `train` raises on every history. -/
def explodingBehavior : ModelBehavior :=
  ⟨"exploding_model", 1, fun _ => false, fun _ _ _ => []⟩

/-- `modelsRegistry` extended with the always-failing-training model. -/
def registryWithExploding : String → Option ModelBehavior := fun model_name =>
  if model_name = "exploding_model" then some explodingBehavior
  else modelsRegistry model_name

/-- **C2 (counterexample).** When the selected model's `train` raises,
`run_simulation` returns the plain empty dict `{}` (lines 133-135): no
exception propagates, but neither is the returned value a structured
failure result reporting `modelUsed`, `fallbackReason`, metrics or run id —
it is not a result dict at all. -/
theorem train_failure_empty_dict_counterexample :
    ∃ ret,
      run_simulation registryWithExploding envShortHistory ⟨none, none⟩ 0 24
        "exploding_model" = .ok ret ∧
      ret.outcome = .emptyDict ∧ ∀ r, ret.outcome ≠ .result r := by
  refine ⟨_, rfl, rfl, ?_⟩
  intro r hcon
  cases hcon

/-- **C2 (amended).** If the selected model's `train` raises,
`run_simulation` catches the exception and returns the empty dict `{}`
(embedded as `SimOutcome.emptyDict`, with nothing registered or stored)
instead of propagating the raw exception — but also instead of the
well-formed failure object the spec describes. -/
theorem train_failure_returns_empty_dict
    (registry : String → Option ModelBehavior) (env : SimEnv)
    (twin : TwinState) (alloc : ℕ) (h : ℤ) (name : String)
    (inst : LoadedInstance) (allocAfter : ℕ)
    (hsel : selectModel twin.forecasting_model registry alloc name =
      .ok (inst, allocAfter))
    (htr : inst.behavior.trainOk env.historical = false) :
    run_simulation registry env twin alloc h name =
      .ok ⟨.emptyDict, inst, ⟨some inst, latestAfterFetch env twin⟩,
        allocAfter, none, none⟩ := by
  unfold run_simulation
  rw [hsel]
  dsimp only
  rw [if_neg (by rw [htr]; exact Bool.false_ne_true)]

/-- Witness for `train_failure_returns_empty_dict` at the concrete
always-failing model. -/
theorem train_failure_returns_empty_dict_witness :
    run_simulation registryWithExploding envShortHistory ⟨none, none⟩ 0 24
        "exploding_model" =
      .ok ⟨.emptyDict, ⟨explodingBehavior, 0⟩,
        ⟨some ⟨explodingBehavior, 0⟩, none⟩, 1, none, none⟩ :=
  train_failure_returns_empty_dict registryWithExploding envShortHistory
    ⟨none, none⟩ 0 24 "exploding_model" ⟨explodingBehavior, 0⟩ 1 rfl rfl

/-! ## C5: loader freshness versus orchestrator caching -/

/-- **C5 (counterexample).** Two consecutive `run_simulation` calls on the
same orchestrator requesting the same model name use the **same** model
instance (same allocation tag): the second call finds the cached model's
name equal to the request (line 112) and skips reloading, so trained state
is shared across the two runs. -/
theorem instance_shared_across_runs_counterexample :
    ∃ ret1 ret2,
      run_simulation modelsRegistry envShortHistory ⟨none, none⟩ 0 24
        "baseline_model" = .ok ret1 ∧
      run_simulation modelsRegistry envShortHistory ret1.twinAfter
        ret1.allocAfter 24 "baseline_model" = .ok ret2 ∧
      ret1.selected.instanceId = ret2.selected.instanceId := by
  refine ⟨_, _, rfl, rfl, rfl⟩

/-- **C5 (amended).** `load_forecasting_model` itself returns a fresh
instance on every call (the returned object carries the current allocation
tag and the counter advances), but `run_simulation` reuses its cached model
instance whenever the cached model's name equals the requested name — so
model instances **are** shared across consecutive same-name runs on one
orchestrator. -/
theorem loader_fresh_but_orchestrator_caches
    (registry : String → Option ModelBehavior) :
    (∀ alloc name inst allocAfter,
      load_forecasting_model registry alloc name = .ok (inst, allocAfter) →
        inst.instanceId = alloc ∧ allocAfter = alloc + 1) ∧
    (∀ inst alloc name, inst.behavior.model_name = name →
      selectModel (some inst) registry alloc name = .ok (inst, alloc)) := by
  constructor
  · intro alloc name inst allocAfter hload
    unfold load_forecasting_model at hload
    cases hreg : registry name with
    | none =>
      rw [hreg] at hload
      cases hload
    | some b =>
      rw [hreg] at hload
      have hpair := Except.ok.inj hload
      injection hpair with h1 h2
      subst h1
      subst h2
      exact ⟨rfl, rfl⟩
  · intro inst alloc name hname
    unfold selectModel
    dsimp only
    rw [if_pos hname]

/-- Witness for `loader_fresh_but_orchestrator_caches`: loading `dl_model`
at counter 5 yields the instance tagged 5 and counter 6; an orchestrator
caching a baseline instance tagged 3 keeps exactly that instance for a
`baseline_model` request. -/
theorem loader_fresh_but_orchestrator_caches_witness :
    ((⟨dlBehavior, 5⟩ : LoadedInstance).instanceId = 5 ∧ (6 : ℕ) = 5 + 1) ∧
      selectModel (some ⟨baselineBehavior, 3⟩) modelsRegistry 9
        "baseline_model" = .ok (⟨baselineBehavior, 3⟩, 9) :=
  ⟨(loader_fresh_but_orchestrator_caches modelsRegistry).1 5 "dl_model"
      ⟨dlBehavior, 5⟩ 6 rfl,
    (loader_fresh_but_orchestrator_caches modelsRegistry).2
      ⟨baselineBehavior, 3⟩ 9 "baseline_model" rfl⟩

/-! ## C8: run-registration failure is swallowed -/

/-- An environment identical to `envShortHistory` except that
`insert_forecast_run` raises. -/
def envInsertFails : SimEnv :=
  ⟨"M8", [⟨0, 5⟩], none, 0, 7, false, true, fun _ _ => []⟩

/-- **C8 (counterexample).** When persisting the ForecastRun record fails,
the failure does **not** propagate to the caller of the simulation: the run
continues and returns a normal result dict with `run_id = None`, no run row
inserted and no predictions (nor metrics) stored. -/
theorem insert_run_failure_swallowed_counterexample :
    ∃ ret r,
      run_simulation modelsRegistry envInsertFails ⟨none, none⟩ 0 24
        "baseline_model" = .ok ret ∧
      ret.outcome = .result r ∧ r.run_id = none ∧
      ret.insertedRun = none ∧ ret.storedPredictions = none := by
  refine ⟨_, _, rfl, rfl, rfl, rfl, rfl⟩

/-- **C8 (amended).** A failing `insert_forecast_run` is caught at lines
179-182 and the simulation continues without database persistence: the call
still returns `.ok` with a full result dict whose `run_id` is null, and the
prediction-storage / metric-update block is skipped. -/
theorem insert_run_failure_swallowed
    (registry : String → Option ModelBehavior) (env : SimEnv)
    (twin : TwinState) (alloc : ℕ) (h : ℤ) (name : String)
    (inst : LoadedInstance) (allocAfter : ℕ)
    (hsel : selectModel twin.forecasting_model registry alloc name =
      .ok (inst, allocAfter))
    (htr : inst.behavior.trainOk env.historical = true)
    (hins : env.insertRunOk = false) :
    run_simulation registry env twin alloc h name =
      .ok ⟨.result ⟨env.meter_id, name, simStart env twin, simEnd env twin h,
          simPreds inst env twin h, simActuals env twin h,
          calculate_forecast_metrics (simActuals env twin h)
            (simPreds inst env twin h), none⟩,
        inst, ⟨some inst, latestAfterFetch env twin⟩, allocAfter,
        none, none⟩ := by
  have hrid : simRunId env = none := by
    unfold simRunId
    rw [hins]
    rfl
  unfold run_simulation
  rw [hsel]
  dsimp only
  rw [if_pos htr, hrid]
  rfl

/-- Witness for `insert_run_failure_swallowed` at the concrete environment
whose run registration fails. -/
theorem insert_run_failure_swallowed_witness :
    run_simulation modelsRegistry envInsertFails ⟨none, none⟩ 0 24
        "baseline_model" =
      .ok ⟨.result ⟨envInsertFails.meter_id, "baseline_model",
          simStart envInsertFails ⟨none, none⟩,
          simEnd envInsertFails ⟨none, none⟩ 24,
          simPreds ⟨baselineBehavior, 0⟩ envInsertFails ⟨none, none⟩ 24,
          simActuals envInsertFails ⟨none, none⟩ 24,
          calculate_forecast_metrics
            (simActuals envInsertFails ⟨none, none⟩ 24)
            (simPreds ⟨baselineBehavior, 0⟩ envInsertFails ⟨none, none⟩ 24),
          none⟩,
        ⟨baselineBehavior, 0⟩,
        ⟨some ⟨baselineBehavior, 0⟩, none⟩, 1, none, none⟩ :=
  insert_run_failure_swallowed modelsRegistry envInsertFails ⟨none, none⟩ 0 24
    "baseline_model" ⟨baselineBehavior, 0⟩ 1 rfl rfl rfl

end DigitalTwinProj
